import Mathlib

/-!
Shallow embedding of `src/Clusterring/check_video.py`: a pipeline that
samples frames from a video stream, scores each sampled frame with an
external image-moderation classifier, and aggregates the per-frame
scores into a single arithmetic mean.

Reals (Python floats) are modelled by `ℚ`; machine frame counters are
`ℕ`; fallible code returns `Except`.
-/

namespace CheckVideo

/-- A decoded video stream as `cv2.VideoCapture` exposes it: whether the
stream could be opened, the reported source frame rate
(`cap.get(cv2.CAP_PROP_FPS)`, may be zero or negative), and the ordered
sequence of decodable frames (`cap.read()` succeeds exactly once per
listed frame, in order, then reports exhaustion). Frame content has
type `α`. -/
structure VideoStream (α : Type) where
  opened : Bool
  fps : ℚ
  frames : List α

/-- Python `int()` applied to a ratio: truncation toward zero
(floor for non-negative arguments, ceiling for negative ones). -/
def pyInt (q : ℚ) : ℤ := if 0 ≤ q then ⌊q⌋ else ⌈q⌉

/-- Line 25 of `check_video.py`:
`interval = int(fps / frame_rate) if fps > 0 else 1`. -/
def interval (fps frame_rate : ℚ) : ℤ :=
  if 0 < fps then pyInt (fps / frame_rate) else 1

/-- The read loop of lines 27-37: walk the frames with a counter
`frame_count` starting at `k`, keeping a frame exactly when
`frame_count % interval == 0`. For any nonzero modulus, Python's
`x % I == 0` agrees with `(x : ℤ) % I = 0` (both say `I` divides `x`);
the `I = 0` case, where Python raises `ZeroDivisionError` on the first
iteration, is fenced off by the caller `extract_frames` below. -/
def sampleLoop {α : Type} (I : ℤ) : ℕ → List α → List α
  | _, [] => []
  | k, f :: rest =>
    if (k : ℤ) % I = 0 then f :: sampleLoop I (k + 1) rest
    else sampleLoop I (k + 1) rest

/-- The frames kept by the loop of lines 27-37, counter starting at 0. -/
def selectFrames {α : Type} (frames : List α) (I : ℤ) : List α :=
  sampleLoop I 0 frames

/-- The ways `extract_frames` can raise:
`streamUnavailable` = the `IOError` of line 21;
`rateZeroDivision` = `ZeroDivisionError` from `int(fps / frame_rate)`
at line 25 when `frame_rate == 0` (and `fps > 0`);
`moduloZeroDivision` = `ZeroDivisionError` from `frame_count % interval`
at line 32 when the interval is zero and at least one frame is read;
`emptyResult` = the `ValueError` of line 41. -/
inductive ExtractError where
  | streamUnavailable
  | rateZeroDivision
  | moduloZeroDivision
  | emptyResult
deriving DecidableEq

/-- Lines 15-42, `extract_frames(video_path, frame_rate)`. Note that
when the interval is zero but the stream has no decodable frame, the
loop never evaluates the modulo, so the `ValueError` of line 41 is
reached instead of a `ZeroDivisionError`. -/
def extract_frames {α : Type} (v : VideoStream α) (frame_rate : ℚ) :
    Except ExtractError (List α) :=
  if v.opened = false then .error .streamUnavailable
  else if 0 < v.fps ∧ frame_rate = 0 then .error .rateZeroDivision
  else if interval v.fps frame_rate = 0 ∧ v.frames.isEmpty = false then
    .error .moduloZeroDivision
  else if (selectFrames v.frames (interval v.fps frame_rate)).isEmpty = true then
    .error .emptyResult
  else .ok (selectFrames v.frames (interval v.fps frame_rate))

/-- Outcome of the interaction with the Sightengine API for one frame
(lines 53-68): the HTTP exchange and the shape of the JSON body.
`ok r` = 2xx response whose body parses and contains `nudity.raw = r`;
`requestError` = `requests.exceptions.RequestException`, covering
network errors and the non-2xx `raise_for_status()` of line 63;
`malformedJson` = `response.json()` fails to parse the body
(`requests.exceptions.JSONDecodeError`, a `RequestException` subclass,
so it is caught by line 72 as well);
`missingNudity` = body parses but has no `"nudity"` key (line 67 else);
`missingRaw` = body has `"nudity"` but no `"raw"` inside it, so line 68
raises `KeyError`, which the `except` of line 72 does NOT catch. -/
inductive ApiOutcome where
  | ok (raw : ℚ)
  | requestError
  | malformedJson
  | missingNudity
  | missingRaw
deriving DecidableEq

/-- Lines 44-77, `classify_frame_with_api(frame)`, as a function of the
API outcome for that frame. `.error ()` models an uncaught exception
propagating out of the function (the `KeyError` of line 68); every
caught failure returns the substituted score `0.0`. -/
def classify_frame_with_api : ApiOutcome → Except Unit ℚ
  | .ok r => .ok r
  | .requestError => .ok 0
  | .malformedJson => .ok 0
  | .missingNudity => .ok 0
  | .missingRaw => .error ()

/-- The score each non-raising branch of `classify_frame_with_api`
produces: the reported raw score on success, `0.0` for every caught
failure kind (and `0` as a dummy on `missingRaw`, which raises). -/
def substScore : ApiOutcome → ℚ
  | .ok r => r
  | _ => 0

/-- The loop of lines 91-97 in `analyze_video`: classify each frame;
on an uncaught exception from `classify_frame_with_api` the
`except Exception` of line 96 swallows it and appends nothing, so the
frame is skipped; otherwise the returned score is appended. -/
def collectScores : List ApiOutcome → List ℚ
  | [] => []
  | o :: rest =>
    match classify_frame_with_api o with
    | .ok s => s :: collectScores rest
    | .error _ => collectScores rest

/-- The list comprehension of line 111 in `__main__`: classify each
frame in order, aborting the whole comprehension on the first uncaught
exception. -/
def mainScores : List ApiOutcome → Except Unit (List ℚ)
  | [] => .ok []
  | o :: rest =>
    match classify_frame_with_api o with
    | .error e => .error e
    | .ok s =>
      match mainScores rest with
      | .error e => .error e
      | .ok ss => .ok (s :: ss)

/-- `np.mean` on a list of floats: `NaN` (here `none`) on an empty
list, otherwise the arithmetic mean. -/
def npMean (s : List ℚ) : Option ℚ :=
  if s.isEmpty = true then none else some (s.sum / (s.length : ℚ))

/-- Fatal errors of the pipeline:
`extractFailed` wraps an exception raised by `extract_frames`;
`noFramesExtracted` = the `ValueError` of line 88;
`emptyScores` = the `ValueError` of line 100;
`frameClassificationRaised` = an uncaught classifier exception escaping
the list comprehension of line 111 into the `except` of line 114. -/
inductive PipelineError where
  | extractFailed (e : ExtractError)
  | noFramesExtracted
  | emptyScores
  | frameClassificationRaised
deriving DecidableEq

/-- Lines 99-102 of `analyze_video`: raise `ValueError` when no score
was collected, otherwise return `np.mean(nsfw_scores)` (the mean is
only ever taken here after the emptiness check). -/
def aggregate (scores : List ℚ) : Except PipelineError ℚ :=
  if scores.isEmpty = true then .error .emptyScores
  else .ok (scores.sum / (scores.length : ℚ))

/-- Lines 79-104, `analyze_video`: extract frames at `frame_rate=1`,
classify each sampled frame (outcome of the `i`-th sampled frame given
by `outcomes i`), aggregate. The check of lines 87-88 is kept even
though `extract_frames` can never return an empty list. -/
def analyze_video {α : Type} (v : VideoStream α) (outcomes : ℕ → ApiOutcome) :
    Except PipelineError ℚ :=
  match extract_frames v 1 with
  | .error e => .error (.extractFailed e)
  | .ok frames =>
    if frames.isEmpty = true then .error .noFramesExtracted
    else aggregate (collectScores ((List.range frames.length).map outcomes))

/-- Lines 106-115, the `__main__` entry point: extract frames at
`frame_rate=1`, classify all frames (any uncaught classifier exception
aborts to the `except` of line 114), then take `np.mean` with NO
emptiness check. `.ok none` would be the silent `NaN` outcome. -/
def main_run {α : Type} (v : VideoStream α) (outcomes : ℕ → ApiOutcome) :
    Except PipelineError (Option ℚ) :=
  match extract_frames v 1 with
  | .error e => .error (.extractFailed e)
  | .ok frames =>
    match mainScores ((List.range frames.length).map outcomes) with
    | .error _ => .error .frameClassificationRaised
    | .ok scores => .ok (npMean scores)

/-- The 0-based frame positions the sampler keeps out of `n` frames at
interval `I`: those whose counter satisfies `i % I == 0`. -/
def keptIndices (n : ℕ) (I : ℤ) : List ℕ :=
  (List.range n).filter (fun i => decide ((i : ℤ) % I = 0))

/-- File-system effect of one `classify_frame_with_api` call
(lines 48-77): `fs` is the set of temp files on disk, `tmp` the fresh
name `tempfile.NamedTemporaryFile` picks. The file is created with
`delete=False` before the request (lines 49-51); the `finally` of
lines 75-77 (`if os.path.exists: os.remove`) runs on the success
branch, on every caught-failure branch, and also while the `KeyError`
of the `missingRaw` branch propagates. -/
def classify_frame_fs (fs : List String) (tmp : String) (o : ApiOutcome) :
    Except Unit ℚ × List String :=
  let fs1 := tmp :: fs
  let runFinally := fun (fsx : List String) =>
    if tmp ∈ fsx then fsx.erase tmp else fsx
  match o with
  | .ok r => (.ok r, runFinally fs1)
  | .requestError => (.ok 0, runFinally fs1)
  | .malformedJson => (.ok 0, runFinally fs1)
  | .missingNudity => (.ok 0, runFinally fs1)
  | .missingRaw => (.error (), runFinally fs1)

end CheckVideo

namespace CheckVideo

theorem sampleLoop_eq_filterMap {α : Type} (I : ℤ) :
    ∀ (k : ℕ) (l : List α),
    sampleLoop I k l =
      ((List.range l.length).filter
        (fun i => decide (((k + i : ℕ) : ℤ) % I = 0))).filterMap (fun i => l.get? i)
  | k, [] => by simp [sampleLoop]
  | k, f :: rest => by
    have ih := sampleLoop_eq_filterMap I (k + 1) rest
    have hcomp : ((fun i => (f :: rest).get? i) ∘ Nat.succ) = (fun i => rest.get? i) := by
      funext i
      simp
    have hpred : (List.range rest.length).filter
        ((fun i => decide (((k + i : ℕ) : ℤ) % I = 0)) ∘ Nat.succ) =
        (List.range rest.length).filter
        (fun i => decide ((((k + 1) + i : ℕ) : ℤ) % I = 0)) := by
      apply List.filter_congr
      intro i _
      have h2 : k + (i + 1) = (k + 1) + i := by omega
      simp only [Function.comp, Nat.succ_eq_add_one, h2]
    have hrest : ((List.map Nat.succ
          ((List.range rest.length).filter
            ((fun i => decide (((k + i : ℕ) : ℤ) % I = 0)) ∘ Nat.succ))).filterMap
        (fun i => (f :: rest).get? i)) = sampleLoop I (k + 1) rest := by
      rw [List.filterMap_map, hcomp, hpred, ← ih]
    simp only [sampleLoop, List.length_cons, List.range_succ_eq_map,
      List.filter_cons, Nat.add_zero, decide_eq_true_eq]
    rw [List.filter_map]
    by_cases h : (k : ℤ) % I = 0
    · rw [if_pos h, if_pos h]
      simp only [List.filterMap_cons, List.get?_cons_zero, hrest]
    · rw [if_neg h, if_neg h, hrest]

theorem selectFrames_eq_keptIndices {α : Type} (l : List α) (I : ℤ) :
    selectFrames l I = (keptIndices l.length I).filterMap (fun i => l.get? i) := by
  rw [selectFrames, sampleLoop_eq_filterMap, keptIndices]
  congr 1
  apply List.filter_congr
  intro i _
  simp

theorem mem_keptIndices {n : ℕ} {I : ℤ} {i : ℕ} :
    i ∈ keptIndices n I ↔ i < n ∧ I ∣ (i : ℤ) := by
  rw [keptIndices, List.mem_filter, List.mem_range]
  constructor
  · rintro ⟨h1, h2⟩
    exact ⟨h1, Int.dvd_of_emod_eq_zero (by simpa using h2)⟩
  · rintro ⟨h1, h2⟩
    exact ⟨h1, by simpa using Int.emod_eq_zero_of_dvd h2⟩

theorem filterMap_get?_length {α : Type} (l : List α) :
    ∀ (ks : List ℕ), (∀ i ∈ ks, i < l.length) →
    (ks.filterMap (fun i => l.get? i)).length = ks.length
  | [], _ => rfl
  | i :: ks, h => by
    have hi : i < l.length := h i (List.mem_cons_self i ks)
    have ih := filterMap_get?_length l ks (fun j hj => h j (List.mem_cons_of_mem i hj))
    rw [List.filterMap_cons, List.get?_eq_get hi]
    simpa using ih

theorem count_dvd_range (K : ℕ) (hK : 1 ≤ K) :
    ∀ N : ℕ, ((List.range N).filter (fun i => decide (K ∣ i))).length = (N + K - 1) / K
  | 0 => by
    simp [Nat.div_eq_of_lt (show K - 1 < K by omega)]
  | N + 1 => by
    have ih := count_dvd_range K hK N
    rw [List.range_succ, List.filter_append, List.length_append, ih]
    have hstep : (N + 1 + K - 1) / K = N / K + 1 := by
      have h0 : N + 1 + K - 1 = N + K := by omega
      rw [h0, Nat.add_div_right N hK]
    rw [hstep]
    by_cases h : K ∣ N
    · obtain ⟨m, hm⟩ := h
      subst hm
      have hone : (List.filter (fun i => decide (K ∣ i)) [K * m]).length = 1 := by
        simp [Dvd.intro m rfl]
      rw [hone]
      have h1 : K * m + K - 1 = K * m + (K - 1) := by omega
      rw [h1, Nat.mul_add_div (by omega : 0 < K),
        Nat.div_eq_of_lt (show K - 1 < K by omega),
        Nat.mul_div_right m (by omega : 0 < K)]
    · have hzero : (List.filter (fun i => decide (K ∣ i)) [N]).length = 0 := by
        simp [h]
      rw [hzero]
      have hdm : K * (N / K) + N % K = N := Nat.div_add_mod N K
      have hr0 : N % K ≠ 0 := fun hc => h (Nat.dvd_iff_mod_eq_zero.mpr hc)
      have hrK : N % K < K := Nat.mod_lt N (by omega)
      have hsplit : N + K - 1 = K * (N / K) + (N % K - 1 + K) := by omega
      rw [hsplit, Nat.mul_add_div (by omega : 0 < K), Nat.add_div_right _ hK,
        Nat.div_eq_of_lt (show N % K - 1 < K by omega)]

theorem keptIndices_length (N : ℕ) (I : ℤ) (hI : 1 ≤ I) :
    (keptIndices N I).length = (N + I.toNat - 1) / I.toNat := by
  have hKpos : 1 ≤ I.toNat := by omega
  have hcast : ((I.toNat : ℤ)) = I := Int.toNat_of_nonneg (by omega)
  have hpred : (List.range N).filter (fun i : ℕ => decide ((i : ℤ) % I = 0)) =
      (List.range N).filter (fun i : ℕ => decide (I.toNat ∣ i)) := by
    apply List.filter_congr
    intro i _
    have : ((i : ℤ) % I = 0) ↔ (I.toNat ∣ i) := by
      rw [← hcast, Int.ofNat_dvd.symm]
      exact ⟨Int.dvd_of_emod_eq_zero, Int.emod_eq_zero_of_dvd⟩
    simp only [this]
  rw [keptIndices, hpred, count_dvd_range I.toNat hKpos N]

theorem ceil_div_eq_add_pred_div (N K : ℕ) (hK : 1 ≤ K) :
    ⌈(N : ℚ) / (K : ℚ)⌉ = (((N + K - 1) / K : ℕ) : ℤ) := by
  have hKQ : (0 : ℚ) < (K : ℚ) := by
    have : 0 < K := by omega
    exact_mod_cast this
  have hdm : K * ((N + K - 1) / K) + (N + K - 1) % K = N + K - 1 :=
    Nat.div_add_mod (N + K - 1) K
  have hmlt : (N + K - 1) % K < K := Nat.mod_lt (N + K - 1) (by omega)
  have hle : N ≤ K * ((N + K - 1) / K) := by omega
  have hlt : K * ((N + K - 1) / K) < N + K := by omega
  set c : ℕ := (N + K - 1) / K with hc
  have hcast1 : (N : ℚ) ≤ (K : ℚ) * (c : ℚ) := by exact_mod_cast hle
  have hcast2 : (K : ℚ) * (c : ℚ) < (N : ℚ) + (K : ℚ) := by exact_mod_cast hlt
  rw [Int.ceil_eq_iff]
  constructor
  · rw [lt_div_iff₀ hKQ]
    push_cast
    nlinarith [hcast2]
  · rw [div_le_iff₀ hKQ]
    push_cast
    nlinarith [hcast1]

theorem extract_frames_ok_inv {α : Type} {v : VideoStream α} {R : ℚ} {l : List α}
    (h : extract_frames v R = .ok l) :
    v.opened = true ∧ l = selectFrames v.frames (interval v.fps R) ∧ l.isEmpty = false := by
  unfold extract_frames at h
  split_ifs at h with h1 h2 h3 h4
  · injection h with h5
    subst h5
    refine ⟨by simpa using h1, rfl, by simpa using h4⟩

theorem extract_frames_ok_ne_nil {α : Type} {v : VideoStream α} {R : ℚ} {l : List α}
    (h : extract_frames v R = .ok l) : l ≠ [] := by
  have h2 := (extract_frames_ok_inv h).2.2
  intro hc
  subst hc
  simp at h2

theorem selectFrames_cons {α : Type} (f : α) (rest : List α) (I : ℤ) :
    selectFrames (f :: rest) I = f :: sampleLoop I 1 rest := by
  rw [selectFrames, sampleLoop]
  rw [if_pos]
  simp

theorem collectScores_no_missingRaw :
    ∀ (os : List ApiOutcome), (∀ o ∈ os, o ≠ .missingRaw) →
    collectScores os = os.map substScore
  | [], _ => rfl
  | o :: os, h => by
    have ih := collectScores_no_missingRaw os (fun x hx => h x (List.mem_cons_of_mem o hx))
    have ho := h o (List.mem_cons_self o os)
    cases o with
    | ok r => simpa [collectScores, classify_frame_with_api, substScore] using ih
    | requestError => simpa [collectScores, classify_frame_with_api, substScore] using ih
    | malformedJson => simpa [collectScores, classify_frame_with_api, substScore] using ih
    | missingNudity => simpa [collectScores, classify_frame_with_api, substScore] using ih
    | missingRaw => exact absurd rfl ho

theorem mainScores_ok_length :
    ∀ {os : List ApiOutcome} {s : List ℚ}, mainScores os = .ok s → s.length = os.length
  | [], s, h => by
    simp only [mainScores] at h
    injection h with h2
    subst h2
    rfl
  | o :: os, s, h => by
    simp only [mainScores] at h
    cases hc : classify_frame_with_api o with
    | error e => rw [hc] at h; exact absurd h (by simp)
    | ok r =>
      rw [hc] at h
      cases hm : mainScores os with
      | error e => rw [hm] at h; exact absurd h (by simp)
      | ok ss =>
        rw [hm] at h
        injection h with h2
        subst h2
        simp [mainScores_ok_length hm]

theorem extract_frames_eq_ok {α : Type} {v : VideoStream α} {R : ℚ}
    (hop : v.opened = true) (hrate : ¬(0 < v.fps ∧ R = 0))
    (hI : interval v.fps R ≠ 0)
    (hne : (selectFrames v.frames (interval v.fps R)).isEmpty = false) :
    extract_frames v R = .ok (selectFrames v.frames (interval v.fps R)) := by
  unfold extract_frames
  rw [if_neg (by simp [hop]), if_neg hrate, if_neg (by simp [hI]), if_neg (by simp [hne])]

/-- Claim C5 (confirmed): an unopenable stream fails with the `StreamUnavailable` kind
(the `IOError` of line 21); an opened stream with no decodable frame,
and more generally an opened stream whose completed selection kept
zero frames, fails with the `EmptyResult` kind (the `ValueError` of
line 41); and in no case does `extract_frames` return an empty list. -/
theorem extract_frames_error_taxonomy {α : Type} (v : VideoStream α) (R : ℚ)
    (hR : 0 < R) :
    (v.opened = false → extract_frames v R = .error .streamUnavailable) ∧
    (v.opened = true → v.frames = [] → extract_frames v R = .error .emptyResult) ∧
    (v.opened = true → interval v.fps R ≠ 0 →
      selectFrames v.frames (interval v.fps R) = [] →
      extract_frames v R = .error .emptyResult) ∧
    (∀ l, extract_frames v R = .ok l → l ≠ []) := by
  have hrate : ¬(0 < v.fps ∧ R = 0) := fun hc => absurd hc.2 (ne_of_gt hR)
  refine ⟨?_, ?_, ?_, fun l h => extract_frames_ok_ne_nil h⟩
  · intro h
    unfold extract_frames
    rw [if_pos h]
  · intro hop hnil
    unfold extract_frames
    have hsel : selectFrames v.frames (interval v.fps R) = [] := by
      rw [hnil]
      rfl
    rw [if_neg (by simp [hop]), if_neg hrate, if_neg (by simp [hnil]), if_pos (by simp [hsel])]
  · intro hop hI hsel
    unfold extract_frames
    rw [if_neg (by simp [hop]), if_neg hrate, if_neg (by simp [hI]), if_pos (by simp [hsel])]

theorem extract_frames_error_taxonomy_witness :
    extract_frames (⟨false, 30, [5]⟩ : VideoStream ℕ) 1 = .error .streamUnavailable ∧
    extract_frames (⟨true, 30, ([] : List ℕ)⟩ : VideoStream ℕ) 1 = .error .emptyResult := by
  constructor
  · exact (extract_frames_error_taxonomy (⟨false, 30, [5]⟩ : VideoStream ℕ) 1 one_pos).1 rfl
  · exact (extract_frames_error_taxonomy (⟨true, 30, []⟩ : VideoStream ℕ) 1 one_pos).2.1 rfl rfl

/-- Claim C9 (confirmed): any opened stream with at least one decodable frame and a
positive sampling interval keeps the first decoded frame (position 0,
since `0 % interval == 0`), and it is the head of the returned list. -/
theorem extract_frames_first_frame_kept {α : Type} (v : VideoStream α) (R : ℚ)
    (f : α) (rest : List α) (hop : v.opened = true) (hfr : v.frames = f :: rest)
    (hR : 0 < R) (hI : 0 < interval v.fps R) :
    ∃ l, extract_frames v R = .ok (f :: l) := by
  have hrate : ¬(0 < v.fps ∧ R = 0) := fun hc => absurd hc.2 (ne_of_gt hR)
  have hcons : selectFrames v.frames (interval v.fps R) =
      f :: sampleLoop (interval v.fps R) 1 rest := by
    rw [hfr, selectFrames_cons]
  refine ⟨sampleLoop (interval v.fps R) 1 rest, ?_⟩
  rw [← hcons]
  exact extract_frames_eq_ok hop hrate (by omega) (by rw [hcons]; rfl)

theorem extract_frames_first_frame_kept_witness :
    ∃ l, extract_frames (⟨true, 2, [5, 6, 7]⟩ : VideoStream ℕ) 1 = .ok (5 :: l) := by
  apply extract_frames_first_frame_kept (⟨true, 2, [5, 6, 7]⟩ : VideoStream ℕ) 1 5 [6, 7] rfl rfl one_pos
  norm_num [interval, pyInt]

/-- Claim C3, counterexample: at reported source rate `F = 1/3 > 0` and
target rate `R = 1` we get `interval = int(F/R) = 0`; the claim's
position filter (`0`-based position a multiple of the interval) would
keep frame 0 and succeed, but the code raises `ZeroDivisionError` at
`frame_count % interval`. -/
theorem extract_frames_zero_interval_not_position_filter :
    extract_frames (⟨true, (1 : ℚ)/3, [5, 7]⟩ : VideoStream ℕ) 1 =
      .error .moduloZeroDivision ∧
    extract_frames (⟨true, (1 : ℚ)/3, [5, 7]⟩ : VideoStream ℕ) 1 ≠ .ok [5] := by
  have h : interval ((1 : ℚ)/3) 1 = 0 := by norm_num [interval, pyInt]
  constructor
  · simp only [extract_frames, h]
    norm_num
  · simp only [extract_frames, h]
    norm_num
    intro hc
    exact Except.noConfusion hc

/-- Claim C3, amended: whenever the interval is nonzero — which is the case
exactly when `floor(F/R) >= 1` for `F > 0`, and with `interval = 1`
when `F <= 0` — every successful extraction returns precisely the
frames whose 0-based position is a multiple of the interval, in
original order; and a nonempty selection on an opened stream does
succeed. When `F > 0` makes the interval zero, the call instead fails
(see the counterexample). -/
theorem extract_frames_keeps_multiples {α : Type} (v : VideoStream α) (R : ℚ)
    (hR : 0 < R) (hI : interval v.fps R ≠ 0) :
    (∀ l, extract_frames v R = .ok l →
       l = (keptIndices v.frames.length (interval v.fps R)).filterMap
             (fun i => v.frames.get? i)) ∧
    (∀ i, i ∈ keptIndices v.frames.length (interval v.fps R) ↔
       i < v.frames.length ∧ (interval v.fps R) ∣ (i : ℤ)) ∧
    (v.fps ≤ 0 → interval v.fps R = 1) ∧
    (v.opened = true →
      (keptIndices v.frames.length (interval v.fps R)).filterMap
          (fun i => v.frames.get? i) ≠ [] →
      extract_frames v R = .ok ((keptIndices v.frames.length (interval v.fps R)).filterMap
          (fun i => v.frames.get? i))) := by
  have hrate : ¬(0 < v.fps ∧ R = 0) := fun hc => absurd hc.2 (ne_of_gt hR)
  refine ⟨?_, ?_, ?_, ?_⟩
  · intro l h
    rw [(extract_frames_ok_inv h).2.1, selectFrames_eq_keptIndices]
  · intro i
    exact mem_keptIndices
  · intro h
    rw [interval, if_neg (not_lt.mpr h)]
  · intro hop hne
    rw [← selectFrames_eq_keptIndices] at hne ⊢
    exact extract_frames_eq_ok hop hrate hI (by simpa [List.isEmpty_iff] using hne)

theorem extract_frames_keeps_multiples_witness :
    (∀ l, extract_frames (⟨true, 2, [10, 20, 30, 40]⟩ : VideoStream ℕ) 1 = .ok l →
       l = (keptIndices 4 (interval 2 1)).filterMap
             (fun i => [10, 20, 30, 40].get? i)) ∧
    (∀ i, i ∈ keptIndices 4 (interval 2 1) ↔ i < 4 ∧ (interval 2 1) ∣ (i : ℤ)) := by
  have h := extract_frames_keeps_multiples (⟨true, 2, [10, 20, 30, 40]⟩ : VideoStream ℕ) 1
    one_pos (by norm_num [interval, pyInt])
  exact ⟨h.1, h.2.1⟩

/-- Claim C10 (confirmed): the selection decision depends only on position, reported
source FPS and the target rate, never on frame data: two streams with
equal FPS and equal frame count keep exactly the same 0-based
positions, and every successful extraction is exactly the frames read
off at those positions. -/
theorem extract_frames_content_independent {α β : Type}
    (v1 : VideoStream α) (v2 : VideoStream β) (R : ℚ)
    (hfps : v1.fps = v2.fps) (hlen : v1.frames.length = v2.frames.length) :
    keptIndices v1.frames.length (interval v1.fps R) =
      keptIndices v2.frames.length (interval v2.fps R) ∧
    (∀ l, extract_frames v1 R = .ok l →
       l = (keptIndices v1.frames.length (interval v1.fps R)).filterMap
             (fun i => v1.frames.get? i)) ∧
    (∀ l, extract_frames v2 R = .ok l →
       l = (keptIndices v2.frames.length (interval v2.fps R)).filterMap
             (fun i => v2.frames.get? i)) := by
  refine ⟨by rw [hfps, hlen], ?_, ?_⟩
  · intro l h
    rw [(extract_frames_ok_inv h).2.1, selectFrames_eq_keptIndices]
  · intro l h
    rw [(extract_frames_ok_inv h).2.1, selectFrames_eq_keptIndices]

theorem extract_frames_content_independent_witness :
    keptIndices ([10, 20] : List ℕ).length (interval 2 1) =
      keptIndices ([true, false] : List Bool).length (interval 2 1) := by
  exact (extract_frames_content_independent
    (⟨true, 2, [10, 20]⟩ : VideoStream ℕ)
    (⟨true, 2, [true, false]⟩ : VideoStream Bool) 1 rfl rfl).1

/-- Claim C1, counterexample to the boundary case: with `F = 1/2 > 0` and
`R = 1` we have `floor(F/R) = 0`; the claim says the interval is then
treated as 1, every frame is kept and the call succeeds, but the code
raises `ZeroDivisionError` at `frame_count % interval` instead, so on
a one-frame stream it neither keeps the frame nor succeeds. -/
theorem extract_frames_zero_interval_no_success :
    extract_frames (⟨true, (1 : ℚ)/2, [7]⟩ : VideoStream ℕ) 1 =
      .error .moduloZeroDivision ∧
    extract_frames (⟨true, (1 : ℚ)/2, [7]⟩ : VideoStream ℕ) 1 ≠ .ok [7] := by
  have h : interval ((1 : ℚ)/2) 1 = 0 := by norm_num [interval, pyInt]
  constructor
  · simp only [extract_frames, h]
    norm_num
  · simp only [extract_frames, h]
    norm_num
    intro hc
    exact Except.noConfusion hc

/-- Claim C1, amended: for an opened stream with `N >= 1` decodable frames,
source rate `F > 0`, target rate `R > 0` and `floor(F/R) >= 1`, the
sampler succeeds and returns exactly `ceil(N / floor(F/R))` frames
(stated both as the natural-number formula `(N + I - 1) / I` and as
the rational ceiling). In the boundary case `floor(F/R) = 0` the call
fails instead of treating the interval as 1 (see the counterexample). -/
theorem extract_frames_returns_ceil_count {α : Type} (v : VideoStream α) (R : ℚ)
    (hop : v.opened = true) (hF : 0 < v.fps) (hR : 0 < R)
    (hI : 1 ≤ ⌊v.fps / R⌋) (hne : v.frames ≠ []) :
    ∃ l, extract_frames v R = .ok l ∧
      l.length = (v.frames.length + (⌊v.fps / R⌋).toNat - 1) / (⌊v.fps / R⌋).toNat ∧
      (l.length : ℤ) = ⌈(v.frames.length : ℚ) / ((⌊v.fps / R⌋ : ℤ) : ℚ)⌉ := by
  have hrate : ¬(0 < v.fps ∧ R = 0) := fun hc => absurd hc.2 (ne_of_gt hR)
  have hIv : interval v.fps R = ⌊v.fps / R⌋ := by
    rw [interval, if_pos hF, pyInt, if_pos (div_nonneg (le_of_lt hF) (le_of_lt hR))]
  obtain ⟨f, rest, hfr⟩ := List.exists_cons_of_ne_nil hne
  have hcons : selectFrames v.frames (interval v.fps R) =
      f :: sampleLoop (interval v.fps R) 1 rest := by
    rw [hfr, selectFrames_cons]
  have hok : extract_frames v R = .ok (selectFrames v.frames (interval v.fps R)) :=
    extract_frames_eq_ok hop hrate (by omega) (by rw [hcons]; rfl)
  refine ⟨selectFrames v.frames (interval v.fps R), hok, ?_⟩
  have hmem : ∀ i ∈ keptIndices v.frames.length (interval v.fps R), i < v.frames.length :=
    fun i hi => (mem_keptIndices.mp hi).1
  have hlen : (selectFrames v.frames (interval v.fps R)).length =
      (v.frames.length + (⌊v.fps / R⌋).toNat - 1) / (⌊v.fps / R⌋).toNat := by
    rw [selectFrames_eq_keptIndices, filterMap_get?_length v.frames _ hmem,
      keptIndices_length v.frames.length (interval v.fps R) (by omega), hIv]
  refine ⟨hlen, ?_⟩
  have hQ : (((⌊v.fps / R⌋).toNat : ℕ) : ℚ) = ((⌊v.fps / R⌋ : ℤ) : ℚ) := by
    exact_mod_cast Int.toNat_of_nonneg (show (0 : ℤ) ≤ ⌊v.fps / R⌋ by omega)
  rw [hlen, ← hQ, ceil_div_eq_add_pred_div v.frames.length (⌊v.fps / R⌋).toNat (by omega)]

theorem extract_frames_returns_ceil_count_witness :
    ∃ l, extract_frames (⟨true, 3, [10, 11, 12, 13]⟩ : VideoStream ℕ) 1 = .ok l ∧
      l.length = (([10, 11, 12, 13] : List ℕ).length + (⌊(3 : ℚ) / 1⌋).toNat - 1) /
        (⌊(3 : ℚ) / 1⌋).toNat ∧
      (l.length : ℤ) = ⌈(([10, 11, 12, 13] : List ℕ).length : ℚ) / ((⌊(3 : ℚ) / 1⌋ : ℤ) : ℚ)⌉ := by
  apply extract_frames_returns_ceil_count (⟨true, 3, [10, 11, 12, 13]⟩ : VideoStream ℕ) 1
    rfl (by norm_num) one_pos (by norm_num) (by simp)

/-- Claim C4 (confirmed): on an empty score sequence the aggregator (lines 99-102) fails
with the `EmptyScores` kind and an `aggregate` success always carries
the genuine mean of a nonempty list (never a silent `0.0`/`NaN`
stand-in); moreover the pipeline never evaluates `np.mean` on an empty
list, including the `__main__` entry point of lines 106-115 which has
no emptiness check, because `extract_frames` never returns an empty
frame list. -/
theorem aggregate_empty_error_and_no_nan (α : Type) :
    aggregate [] = .error .emptyScores ∧
    (∀ (s : List ℚ) (q : ℚ), aggregate s = .ok q →
      s ≠ [] ∧ npMean s = some q) ∧
    (∀ (v : VideoStream α) (o : ℕ → ApiOutcome), main_run v o ≠ .ok none) := by
  refine ⟨rfl, ?_, ?_⟩
  · intro s q h
    unfold aggregate at h
    by_cases hs : s.isEmpty = true
    · rw [if_pos hs] at h
      exact absurd h (by simp)
    · rw [if_neg hs] at h
      injection h with h2
      refine ⟨by simpa [List.isEmpty_iff] using hs, ?_⟩
      rw [npMean, if_neg hs, h2]
  · intro v o hc
    unfold main_run at hc
    cases hx : extract_frames v 1 with
    | error e => rw [hx] at hc; exact absurd hc (by simp)
    | ok frames =>
      rw [hx] at hc
      dsimp only at hc
      cases hm : mainScores ((List.range frames.length).map o) with
      | error e => rw [hm] at hc; exact absurd hc (by simp)
      | ok scores =>
        rw [hm] at hc
        dsimp only at hc
        injection hc with hc2
        have hlen : scores.length = frames.length := by
          rw [mainScores_ok_length hm, List.length_map, List.length_range]
        have hfr : frames ≠ [] := extract_frames_ok_ne_nil hx
        have hpos : 0 < scores.length := by
          rw [hlen]
          exact List.length_pos.mpr hfr
        have hne : scores.isEmpty = false := by
          cases scores with
          | nil => simp at hpos
          | cons a l => rfl
        rw [npMean, if_neg (by simp [hne])] at hc2
        exact absurd hc2 (by simp)

theorem aggregate_empty_error_and_no_nan_witness :
    main_run (⟨true, 1, [0]⟩ : VideoStream ℕ) (fun _ => .ok (1/2)) ≠ .ok none :=
  (aggregate_empty_error_and_no_nan ℕ).2.2 (⟨true, 1, [0]⟩ : VideoStream ℕ) (fun _ => .ok (1/2))

/-- Claim C6 (confirmed): on a nonempty score list with every score in `[0, 1]`, the
aggregator returns precisely the arithmetic mean, and that mean lies
in `[0, 1]`. -/
theorem aggregate_mean_in_unit_interval (s : List ℚ) (hne : s ≠ [])
    (hb : ∀ x ∈ s, 0 ≤ x ∧ x ≤ 1) :
    aggregate s = .ok (s.sum / (s.length : ℚ)) ∧
    0 ≤ s.sum / (s.length : ℚ) ∧ s.sum / (s.length : ℚ) ≤ 1 := by
  have hisEmpty : s.isEmpty = false := by
    cases s with
    | nil => exact absurd rfl hne
    | cons a l => rfl
  have hpos : (0 : ℚ) < (s.length : ℚ) := by
    have := List.length_pos.mpr hne
    exact_mod_cast this
  refine ⟨by rw [aggregate, if_neg (by simp [hisEmpty])], ?_, ?_⟩
  · exact div_nonneg (List.sum_nonneg fun x hx => (hb x hx).1) (le_of_lt hpos)
  · rw [div_le_one₀ hpos]
    have h1 := List.sum_le_card_nsmul s 1 (fun x hx => (hb x hx).2)
    rwa [nsmul_eq_mul, mul_one] at h1

theorem aggregate_mean_in_unit_interval_witness :
    aggregate [1/2, 1] = .ok (((1 : ℚ)/2 + 1 + 0) / 2) ∧
    0 ≤ ([1/2, 1] : List ℚ).sum / (([1/2, 1] : List ℚ).length : ℚ) ∧
    ([1/2, 1] : List ℚ).sum / (([1/2, 1] : List ℚ).length : ℚ) ≤ 1 := by
  have h := aggregate_mean_in_unit_interval [1/2, 1] (by simp)
    (by norm_num)
  refine ⟨?_, h.2.1, h.2.2⟩
  rw [h.1]
  norm_num

/-- Claim C7 (confirmed): the aggregate is invariant under any permutation of the score
sequence (the mean depends only on the multiset of scores). -/
theorem aggregate_perm_invariant (s t : List ℚ) (h : List.Perm s t) :
    aggregate s = aggregate t := by
  have hlen : s.length = t.length := h.length_eq
  have hempty : s.isEmpty = t.isEmpty := by
    cases s with
    | nil => cases t with
      | nil => rfl
      | cons b m => simp at hlen
    | cons a l => cases t with
      | nil => simp at hlen
      | cons b m => rfl
  unfold aggregate
  rw [h.sum_eq, hlen, hempty]

theorem aggregate_perm_invariant_witness :
    aggregate [1/4, 3/4] = aggregate [3/4, 1/4] :=
  aggregate_perm_invariant [1/4, 3/4] [3/4, 1/4] (List.Perm.swap (3/4) (1/4) [])

/-- Claim C2, counterexample: on a two-frame video where frame 0 classifies
to raw score 1 and frame 1's response has `"nudity"` without `"raw"`
(a missing expected field), the `KeyError` of line 68 escapes
`classify_frame_with_api`, the `except` of line 96 skips the frame,
and the aggregate is the mean `1` of the one collected score — not the
claimed mean `(1 + 0) / 2 = 1/2` with `0.0` substituted at position 1. -/
theorem analyze_video_missing_raw_excluded :
    analyze_video (⟨true, 1, [0, 1]⟩ : VideoStream ℕ)
      (fun i => if i = 0 then .ok 1 else .missingRaw) = .ok 1 ∧
    ((1 : ℚ) + 0) / 2 ≠ (1 : ℚ) := by
  constructor
  · have h : interval 1 1 = 1 := by norm_num [interval, pyInt]
    simp only [analyze_video, extract_frames, h]
    norm_num [selectFrames, sampleLoop, collectScores, classify_frame_with_api,
      aggregate, List.range_succ]
  · norm_num

/-- Claim C2, amended: when the classifier call for frame `k` fails with a
kind the code catches — a `RequestException` (network error, non-2xx
status, malformed JSON body) or a response without the `"nudity"` key —
while every other frame succeeds, `0.0` is substituted at position `k`,
the pipeline continues, and the aggregate is the mean over ALL frames
with that zero included. (If instead `"nudity"` is present without
`"raw"`, the frame is skipped and excluded from the mean — see the
counterexample.) -/
theorem analyze_video_substitution_mean (os : List ApiOutcome) (k : ℕ)
    (hk : k < os.length)
    (hfail : os.get ⟨k, hk⟩ = .requestError ∨ os.get ⟨k, hk⟩ = .missingNudity ∨
      os.get ⟨k, hk⟩ = .malformedJson)
    (hok : ∀ (j : ℕ) (hj : j < os.length), j ≠ k → ∃ r, os.get ⟨j, hj⟩ = .ok r) :
    collectScores os = os.map substScore ∧
    (os.map substScore).get? k = some 0 ∧
    aggregate (collectScores os) = .ok ((os.map substScore).sum / (os.length : ℚ)) := by
  have hnomr : ∀ o ∈ os, o ≠ .missingRaw := by
    intro o ho hc
    obtain ⟨⟨j, hj⟩, hg⟩ := List.mem_iff_get.mp ho
    by_cases hjk : j = k
    · subst hjk
      rw [hc] at hg
      rcases hfail with hf | hf | hf <;> rw [hg] at hf <;> exact ApiOutcome.noConfusion hf
    · obtain ⟨r, hr⟩ := hok j hj hjk
      rw [hc] at hg
      rw [hg] at hr
      exact ApiOutcome.noConfusion hr
  have hmap := collectScores_no_missingRaw os hnomr
  refine ⟨hmap, ?_, ?_⟩
  · rw [List.get?_map, List.get?_eq_get hk]
    rcases hfail with hf | hf | hf <;> rw [hf] <;> rfl
  · rw [hmap, aggregate, if_neg, List.length_map]
    simp only [List.isEmpty_iff, List.map_eq_nil]
    intro hc
    rw [hc] at hk
    simp at hk

theorem analyze_video_substitution_mean_witness :
    collectScores [.requestError, .ok (1/2)] =
      ([.requestError, .ok (1/2)] : List ApiOutcome).map substScore ∧
    (([.requestError, .ok (1/2)] : List ApiOutcome).map substScore).get? 0 = some 0 ∧
    aggregate (collectScores [.requestError, .ok (1/2)]) =
      .ok ((([.requestError, .ok (1/2)] : List ApiOutcome).map substScore).sum / 2) := by
  have h := analyze_video_substitution_mean [.requestError, .ok (1/2)] 0 (by norm_num)
    (Or.inl rfl)
    (by
      intro j hj hne
      have hj1 : j = 1 := by
        simp only [List.length_cons, List.length_nil] at hj
        omega
      subst hj1
      exact ⟨1/2, rfl⟩)
  exact h

/-- Claim C8 (confirmed): the per-frame temporary image file is created right before the
classifier call and removed by the `finally` of lines 75-77 on the
success path and on every failure path, caught or propagating, so a
call started with a fresh temp name leaves the set of on-disk temp
files unchanged — and the file-system bookkeeping does not alter the
call's result. -/
theorem classify_frame_fs_releases_tempfile (fs : List String) (tmp : String)
    (o : ApiOutcome) (h : tmp ∉ fs) :
    (classify_frame_fs fs tmp o).2 = fs ∧
    tmp ∉ (classify_frame_fs fs tmp o).2 ∧
    (classify_frame_fs fs tmp o).1 = classify_frame_with_api o := by
  cases o <;>
    simp [classify_frame_fs, classify_frame_with_api, List.erase_cons_head, h]

theorem classify_frame_fs_releases_tempfile_witness :
    (classify_frame_fs ["frame0.jpg"] "tmpabc.jpg" .requestError).2 = ["frame0.jpg"] ∧
    "tmpabc.jpg" ∉ (classify_frame_fs ["frame0.jpg"] "tmpabc.jpg" .requestError).2 ∧
    (classify_frame_fs ["frame0.jpg"] "tmpabc.jpg" .requestError).1 =
      classify_frame_with_api .requestError :=
  classify_frame_fs_releases_tempfile ["frame0.jpg"] "tmpabc.jpg" .requestError (by decide)

end CheckVideo
